import Mathlib

/-!
Verification development for the multi-account gateway in `Hedge/account.py`
(`FyersError`, `FyersLoadBalancer`, `FyersAccount`).

The Python code is shallowly embedded: the `deque` of account dicts becomes a
`List Account` (the sticky `_current_account` reference is always the head of
the deque when set, because the only assignment of a non-`None` value happens
right after a rotation placed the chosen account at the head, and accounts are
never removed; we therefore model it as a `Bool` flag), wall-clock instants
become `Int` seconds, and the broker SDK plus the interactive login become
explicit oracle functions.  `datetime.now()` is taken as a single instant per
gateway call.  Python's `timedelta.seconds` attribute (the within-day
remainder, not the total) is modelled exactly as a floor-mod by 86400.
-/

namespace Hedge

/-- ASCII lowering of one character (`str.lower()`; every string matched by
the code is ASCII). -/
def lower_char (c : Char) : Char :=
  if 65 ≤ c.toNat ∧ c.toNat ≤ 90 then Char.ofNat (c.toNat + 32) else c

/-- Substring test on character lists (Python's `pat in hay`). -/
def charsContain : List Char → List Char → Bool
  | hay, pat =>
    if pat.isPrefixOf hay then true
    else
      match hay with
      | [] => false
      | _ :: t => charsContain t pat

/-- Predicate `str_contains hay pat` models `pat.lower() in hay.lower()`. -/
def str_contains (hay pat : String) : Bool :=
  charsContain (hay.toList.map lower_char) (pat.toList.map lower_char)

/-- Keys of the `FyersError.ERRORS` dict. -/
inductive ErrKey
  | expired_token | invalid_token | token_mismatch | invalid_key
  | rate_limit | too_many_requests
  | invalid_param | missing_param | invalid_credentials | market_closed
deriving DecidableEq, Repr

/-- The `FyersError.ERRORS` table: each key maps to its `[code, message]`
pair, verbatim from the source. -/
def ERRORS : ErrKey → String × String
  | .expired_token => ("s-1", "Token is expired")
  | .invalid_token => ("s-2", "Invalid token")
  | .token_mismatch => ("s-4", "Token mismatch")
  | .invalid_key => ("s-5", "Invalid key")
  | .rate_limit => ("s-3", "Rate limit reached")
  | .too_many_requests => ("429", "Too many requests")
  | .invalid_param => ("error-100", "Invalid parameter")
  | .missing_param => ("error-101", "Missing parameter")
  | .invalid_credentials => ("error-102", "Invalid credentials")
  | .market_closed => ("error-103", "Market is closed")

/-- The table keys in dict insertion order. -/
def errorKeys : List ErrKey :=
  [.expired_token, .invalid_token, .token_mismatch, .invalid_key,
   .rate_limit, .too_many_requests,
   .invalid_param, .missing_param, .invalid_credentials, .market_closed]

/-- Test `code.lower() in error_str or msg.lower() in error_str` for one
table entry, the matching expression used in `execute_api_call`. -/
def matches_key (t : String) (k : ErrKey) : Bool :=
  str_contains t (ERRORS k).1 || str_contains t (ERRORS k).2

/-- First table entry (in dict order) matched by the raw error text;
`none` plays the role of the spec's `Unknown`. -/
def classify (t : String) : Option ErrKey :=
  errorKeys.find? (matches_key t)

/-- The token-error test of `execute_api_call` (line 220-221): only the
`expired_token`, `invalid_token`, `token_mismatch` entries are consulted. -/
def token_error_match (t : String) : Bool :=
  [ErrKey.expired_token, .invalid_token, .token_mismatch].any (matches_key t)

/-- The rate-limit test of `execute_api_call` (line 234-235). -/
def rate_error_match (t : String) : Bool :=
  [ErrKey.rate_limit, .too_many_requests].any (matches_key t)

/-- Python's `timedelta.seconds` attribute of `now - last`: the within-day
second remainder, `(now - last).seconds = (now - last) mod 86400`. -/
def td_seconds (delta : Int) : Int := delta % 86400

/-- One pooled account dict `{client_id, model, calls, last_reset}`; the
broker-model handle carries no observable state here and is elided. -/
structure Account where
  client_id : String
  calls : Nat
  last_reset : Int
deriving DecidableEq, Repr

/-- State of `FyersLoadBalancer`: the deque, the hard-coded
`calls_per_minute = 100` attribute, and whether `_current_account` is set
(when set it refers to the head of the deque, see the file comment). -/
structure Balancer where
  active_accounts : List Account
  calls_per_minute : Nat
  current_set : Bool
deriving DecidableEq, Repr

/-- Constructor `FyersLoadBalancer.__init__`. -/
def mkBalancer : Balancer := ⟨[], 100, false⟩

/-- Method `FyersLoadBalancer.add_account`. -/
def add_account (b : Balancer) (cid : String) (now : Int) : Balancer :=
  { b with active_accounts := b.active_accounts ++ [⟨cid, 0, now⟩] }

/-- The window-reset sweep at the top of `get_next_account`: an account is
reset when `(now - last_reset).seconds >= 60`. -/
def reset_windows (now : Int) (accs : List Account) : List Account :=
  accs.map fun a =>
    if 60 ≤ td_seconds (now - a.last_reset) then
      { a with calls := 0, last_reset := now }
    else a

/-- Python `deque.rotate(-1)`: the head moves to the tail. -/
def rotate_left (l : List Account) : List Account := l.drop 1 ++ l.take 1

/-- The `for _ in range(len(...)): rotate(-1); if head.calls < limit: ...`
search loop of `get_next_account`; returns the chosen head and the rotated
deque. -/
def find_under_limit (limit : Nat) : Nat → List Account → Option (Account × List Account)
  | 0, _ => none
  | fuel + 1, accs =>
    match rotate_left accs with
    | [] => none
    | a :: rest =>
      if a.calls < limit then some (a, a :: rest)
      else find_under_limit limit fuel (a :: rest)

/-- Method `FyersLoadBalancer.get_next_account`; exceptions become `Except.error`
with the exact raise message. -/
def get_next_account (b : Balancer) (now : Int) : Except String (Account × Balancer) :=
  if b.active_accounts.isEmpty then .error "No active accounts available"
  else
    match find_under_limit b.calls_per_minute
        (reset_windows now b.active_accounts).length
        (reset_windows now b.active_accounts) with
    | some (a, accs') =>
      .ok (a, { b with active_accounts := accs', current_set := true })
    | none => .error "All accounts have reached rate limit"

/-- The `current_account` property: return the sticky account when set,
otherwise fall through to `get_next_account`. -/
def current_account (b : Balancer) (now : Int) : Except String (Account × Balancer) :=
  match b.current_set, b.active_accounts with
  | true, a :: _ => .ok (a, b)
  | _, _ => get_next_account b now

/-- In-place mutation of the dict at the head of the deque (Python updates
the selected account through a reference; the selected account is the head). -/
def update_head (f : Account → Account) (b : Balancer) : Balancer :=
  { b with active_accounts :=
      match b.active_accounts with
      | [] => []
      | a :: rest => f a :: rest }

/-- In-place mutation of the first dict with the given `client_id` (used for
the re-login mutation; the mutated dict is the currently selected one, which
sits at the head, so the first match is the right one). -/
def replace_first (cid : String) (f : Account → Account) : List Account → List Account
  | [] => []
  | a :: rest =>
    if a.client_id == cid then f a :: rest else a :: replace_first cid f rest

/-- Outcome of one broker invocation `getattr(model, api_method)(...)`. -/
inductive ApiOutcome
  | ok
  | err (msg : String)
deriving DecidableEq, Repr

/-- Result of `execute_api_call`: a successful (annotated) return, the
`API Error ({client_id}): {e}` raise, the `NameError` raised when the except
handler references a never-bound `account`, or the final
`All accounts failed or reached rate limits` raise. -/
inductive ExecResult
  | success (client_id : String) (calls_made : Nat)
  | apiError (client_id : String) (msg : String)
  | nameError
  | exhausted
deriving DecidableEq, Repr

/-- Instrumentation of one `execute_api_call` run: loop iterations entered,
broker invocations performed, `_login_account` re-login attempts made. -/
structure ExecStats where
  iterations : Nat
  invocations : Nat
  logins : Nat
deriving DecidableEq, Repr

/-- Control transfer after one loop iteration of `execute_api_call`:
either the call exits (return or raise) or the loop continues. -/
inductive IterOut
  | exit (r : ExecResult) (b : Balancer) (stats : ExecStats)
  | next (b : Balancer) (lastAcc : Option String) (stats : ExecStats)
deriving DecidableEq, Repr

def iterBal : IterOut → Balancer
  | .exit _ b _ => b
  | .next b _ _ => b

def iterStats : IterOut → ExecStats
  | .exit _ _ s => s
  | .next _ _ s => s

/-- The `except Exception as e` handler of `execute_api_call` (lines
216-240).  `accId` is the value of the loop variable `account` when the
handler runs (`none` when it was never bound).  `cfgIds` are the
`client_id`s present in `self.accounts`; `loginOk i c` tells whether the
`_login_account` attempt at iteration `i` for credential `c` succeeds. -/
def handle_error (cfgIds : List String) (loginOk : Nat → String → Bool) (now : Int)
    (i : Nat) (b : Balancer) (accId : Option String) (e : String)
    (stats : ExecStats) : IterOut :=
  if token_error_match e then
    match accId with
    | some cid =>
      if cfgIds.contains cid then
        let stats := { stats with logins := stats.logins + 1 }
        if loginOk i cid then
          -- account['model'] = new_model; account['calls'] = 0;
          -- account['last_reset'] = datetime.now(); continue
          let accs := replace_first cid
            (fun x => { x with calls := 0, last_reset := now }) b.active_accounts
          .next { b with active_accounts := accs } accId stats
        else
          -- login failed: only printed; fall through to the rate-limit check
          if rate_error_match e then .next { b with current_set := false } accId stats
          else .exit (.apiError cid e) b stats
      else
        -- StopIteration from the config lookup: caught and printed, fall through
        if rate_error_match e then .next { b with current_set := false } accId stats
        else .exit (.apiError cid e) b stats
    | none =>
      -- `account['client_id']` raises NameError inside the inner try; the
      -- except clause's print re-raises NameError, uncaught
      .exit .nameError b stats
  else if rate_error_match e then
    -- self.balancer._current_account = None; continue
    .next { b with current_set := false } accId stats
  else
    match accId with
    | some cid => .exit (.apiError cid e) b stats
    | none => .exit .nameError b stats

/-- One iteration of the `for _ in range(len(...))` loop of
`execute_api_call`: select via the `current_account` property, invoke the
operation (`api i c` is the broker outcome at iteration `i` on account `c`),
on success increment the counter and return the annotated result, on any
exception run the handler. -/
def exec_iter (cfgIds : List String) (api : Nat → String → ApiOutcome)
    (loginOk : Nat → String → Bool) (now : Int) (i : Nat) (b : Balancer)
    (lastAcc : Option String) (stats : ExecStats) : IterOut :=
  let stats := { stats with iterations := stats.iterations + 1 }
  match current_account b now with
  | .error e => handle_error cfgIds loginOk now i b lastAcc e stats
  | .ok (a, b1) =>
    let stats := { stats with invocations := stats.invocations + 1 }
    match api i a.client_id with
    | .ok =>
      .exit (.success a.client_id (a.calls + 1))
        (update_head (fun x => { x with calls := x.calls + 1 }) b1) stats
    | .err m => handle_error cfgIds loginOk now i b1 (some a.client_id) m stats

/-- The bounded retry loop, fuelled by `range(len(active_accounts))`;
falling off the end is the `All accounts failed or reached rate limits`
raise. -/
def exec_loop (cfgIds : List String) (api : Nat → String → ApiOutcome)
    (loginOk : Nat → String → Bool) (now : Int) :
    Nat → Nat → Balancer → Option String → ExecStats → ExecResult × Balancer × ExecStats
  | 0, _, b, _, stats => (.exhausted, b, stats)
  | fuel + 1, i, b, lastAcc, stats =>
    match exec_iter cfgIds api loginOk now i b lastAcc stats with
    | .exit r b' stats' => (r, b', stats')
    | .next b' la' stats' => exec_loop cfgIds api loginOk now fuel (i + 1) b' la' stats'

/-- Method `FyersAccount.execute_api_call`. -/
def execute_api_call (cfgIds : List String) (api : Nat → String → ApiOutcome)
    (loginOk : Nat → String → Bool) (now : Int) (b : Balancer) :
    ExecResult × Balancer × ExecStats :=
  exec_loop cfgIds api loginOk now b.active_accounts.length 0 b none ⟨0, 0, 0⟩

/-- Client id carried by a result (for selection-order scenarios). -/
def result_client : ExecResult → Option String
  | .success c _ => some c
  | .apiError c _ => some c
  | _ => none

/-- The JSON value found under a record's `timestamp` key:
`session.get('timestamp', 0)` yields 0 when absent, and a non-numeric value
makes `time.time() - ...` raise a `TypeError` outside the per-record try. -/
inductive TsField
  | num (n : Int)
  | str (s : String)
  | absent
deriving DecidableEq, Repr

/-- One persisted session record as `_load_sessions` consumes it:
`access_token` and `account.client_id` are `none` when the key path is
missing (a `KeyError` when accessed). -/
structure SRecord where
  timestamp : TsField
  access_token : Option String
  account_id : Option String
deriving DecidableEq, Repr

/-- Observable outcome of `FyersAccount._load_sessions`: the client ids
added to the balancer in order, the `successful` counter, the returned
boolean, and whether the outer `except` fired (abandoning the remaining
records). The function itself never raises. -/
structure LoadOutcome where
  loaded : List String
  successful : Nat
  returned : Bool
  aborted : Bool
deriving DecidableEq, Repr

/-- The record-processing loop of `_load_sessions`.  A string timestamp
raises `TypeError` at `time.time() - ...`, caught only by the outer handler;
a fresh record with a missing `access_token` but a present account id is
skipped individually (the inner handler prints and continues); a fresh
record whose account id is missing raises `KeyError` again inside the inner
`except` clause's print, which escapes to the outer handler. -/
def load_go (now : Int) : List SRecord → List String → Nat → LoadOutcome
  | [], loaded, succ => ⟨loaded, succ, decide (0 < succ), false⟩
  | r :: rest, loaded, succ =>
    match r.timestamp with
    | .str _ => ⟨loaded, succ, false, true⟩
    | .num n =>
      if now - n < 24 * 3600 then
        match r.access_token, r.account_id with
        | some _, some cid => load_go now rest (loaded ++ [cid]) (succ + 1)
        | some _, none => ⟨loaded, succ, false, true⟩
        | none, some _ => load_go now rest loaded succ
        | none, none => ⟨loaded, succ, false, true⟩
      else load_go now rest loaded succ
    | .absent =>
      if now - 0 < 24 * 3600 then
        match r.access_token, r.account_id with
        | some _, some cid => load_go now rest (loaded ++ [cid]) (succ + 1)
        | some _, none => ⟨loaded, succ, false, true⟩
        | none, some _ => load_go now rest loaded succ
        | none, none => ⟨loaded, succ, false, true⟩
      else load_go now rest loaded succ

/-- Method `FyersAccount._load_sessions`: a missing session file returns `False`
with nothing loaded and no exception. -/
def load_sessions (fileExists : Bool) (records : List SRecord) (now : Int) : LoadOutcome :=
  if fileExists then load_go now records [] 0 else ⟨[], 0, false, false⟩

/-! ### Structural lemmas about selection -/

lemma rotate_left_perm (l : List Account) : (rotate_left l).Perm l := by
  conv_rhs => rw [← List.take_append_drop 1 l]
  exact List.perm_append_comm

lemma mem_rotate_left {x : Account} {l : List Account} : x ∈ rotate_left l ↔ x ∈ l :=
  (rotate_left_perm l).mem_iff

lemma length_rotate_left (l : List Account) : (rotate_left l).length = l.length :=
  (rotate_left_perm l).length_eq

lemma reset_windows_id (now : Int) :
    ∀ l : List Account, (∀ a ∈ l, td_seconds (now - a.last_reset) < 60) →
      reset_windows now l = l
  | [], _ => rfl
  | a :: t, h => by
    have ha := h a (by simp)
    have ht := reset_windows_id now t (fun x hx => h x (by simp [hx]))
    simp only [reset_windows, List.map_cons] at ht ⊢
    rw [if_neg (not_le.mpr ha)]
    exact congrArg (a :: ·) ht

lemma reset_windows_calls_lt {limit : Nat} (now : Int) {l : List Account}
    (hpos : 0 < limit) (h : ∀ a ∈ l, a.calls < limit) :
    ∀ x ∈ reset_windows now l, x.calls < limit := by
  intro x hx
  simp only [reset_windows, List.mem_map] at hx
  obtain ⟨a, ha, rfl⟩ := hx
  split
  · simpa using hpos
  · exact h a ha

lemma length_reset_windows (now : Int) (l : List Account) :
    (reset_windows now l).length = l.length := List.length_map _ _

lemma find_under_limit_shape {limit : Nat} :
    ∀ (fuel : Nat) (l : List Account) (p : Account × List Account),
      find_under_limit limit fuel l = some p →
      (∃ rest, p.2 = p.1 :: rest) ∧ p.1.calls < limit := by
  intro fuel
  induction fuel with
  | zero => intro l p h; simp [find_under_limit] at h
  | succ n ih =>
    intro l p h
    unfold find_under_limit at h
    split at h
    · exact absurd h (by simp)
    · split at h
      · cases h
        exact ⟨⟨_, rfl⟩, by assumption⟩
      · exact ih _ _ h

lemma find_under_limit_first {limit fuel : Nat} {l : List Account} {a : Account}
    {rest : List Account} (hr : rotate_left l = a :: rest) (ha : a.calls < limit) :
    find_under_limit limit (fuel + 1) l = some (a, a :: rest) := by
  unfold find_under_limit
  rw [hr]
  simp [ha]

lemma get_next_account_eq {b : Balancer} {now : Int}
    (hne : b.active_accounts ≠ [])
    (hall : ∀ x ∈ reset_windows now b.active_accounts, x.calls < b.calls_per_minute) :
    ∃ a rest, rotate_left (reset_windows now b.active_accounts) = a :: rest ∧
      get_next_account b now =
        .ok (a, { b with active_accounts := a :: rest, current_set := true }) := by
  have hlen : (reset_windows now b.active_accounts).length = b.active_accounts.length :=
    length_reset_windows now _
  obtain ⟨a, rest, hrot⟩ : ∃ a rest,
      rotate_left (reset_windows now b.active_accounts) = a :: rest := by
    cases hr : rotate_left (reset_windows now b.active_accounts) with
    | nil =>
      have hl := length_rotate_left (reset_windows now b.active_accounts)
      rw [hr, hlen] at hl
      cases hb : b.active_accounts with
      | nil => exact absurd hb hne
      | cons c t => rw [hb] at hl; simp at hl
    | cons a rest => exact ⟨a, rest, rfl⟩
  have hmem : a ∈ reset_windows now b.active_accounts :=
    mem_rotate_left.mp (hrot ▸ List.mem_cons_self a rest)
  have ha : a.calls < b.calls_per_minute := hall a hmem
  refine ⟨a, rest, hrot, ?_⟩
  have hempty : b.active_accounts.isEmpty = false := by
    cases hb : b.active_accounts with
    | nil => exact absurd hb hne
    | cons c t => rfl
  obtain ⟨m, hm⟩ : ∃ m, (reset_windows now b.active_accounts).length = m + 1 := by
    cases hb : b.active_accounts with
    | nil => exact absurd hb hne
    | cons c t => exact ⟨t.length, by simp [reset_windows]⟩
  unfold get_next_account
  rw [hempty, hm, find_under_limit_first hrot ha]
  rfl

lemma current_account_head {b : Balancer} {now : Int} {a : Account} {b1 : Balancer}
    (h : current_account b now = .ok (a, b1)) :
    (∃ rest, b1.active_accounts = a :: rest) ∧ b1.calls_per_minute = b.calls_per_minute := by
  unfold current_account at h
  split at h
  · rename_i a' tail hcur heq
    rw [Except.ok.injEq, Prod.mk.injEq] at h
    obtain ⟨rfl, rfl⟩ := h
    exact ⟨⟨tail, heq⟩, rfl⟩
  · unfold get_next_account at h
    split at h
    · exact absurd h (by simp)
    · split at h
      · rename_i a' accs' hfind
        obtain ⟨⟨rest, hshape⟩, -⟩ := find_under_limit_shape _ _ _ hfind
        rw [Except.ok.injEq, Prod.mk.injEq] at h
        obtain ⟨rfl, rfl⟩ := h
        exact ⟨⟨rest, by simpa using hshape⟩, rfl⟩
      · exact absurd h (by simp)

/-! ### Concrete scenarios -/

/-- A broker that answers every invocation successfully. -/
def api_all_ok : Nat → String → ApiOutcome := fun _ _ => .ok

/-- A re-login oracle that always succeeds. -/
def login_always : Nat → String → Bool := fun _ _ => true

/-- C1 scenario: pool `[A, B]` added in that order, per-account limit 1,
fresh windows, broker never fails. -/
def c1_pool : Balancer := ⟨[⟨"A", 0, 0⟩, ⟨"B", 0, 0⟩], 1, false⟩

def c1_run1 : ExecResult × Balancer × ExecStats :=
  execute_api_call ["A", "B"] api_all_ok login_always 0 c1_pool

def c1_run2 : ExecResult × Balancer × ExecStats :=
  execute_api_call ["A", "B"] api_all_ok login_always 0 c1_run1.2.1

def c1_run3 : ExecResult × Balancer × ExecStats :=
  execute_api_call ["A", "B"] api_all_ok login_always 0 c1_run2.2.1

/-- Accounts selected by the three consecutive `execute_api_call`s. -/
def c1_selected : List (Option String) :=
  [c1_run1.1, c1_run2.1, c1_run3.1].map result_client

/-- C1: the claimed selection order A, B, A is wrong on the code.  The first
selection already rotates past A (the deque is rotated before the limit
check), and the sticky pointer is reused without any limit check, so the
same account keeps being selected after its window limit is exhausted. -/
theorem C1_counterexample : c1_selected ≠ [some "A", some "B", some "A"] := by
  decide

/-- C1 (amended): with pool `[A, B]` and limit 1 per window, three
consecutive calls in the same window select B, B, B — the sticky pointer
reuses the same account regardless of call-count exhaustion, and rotation
happens only when the broker itself reports a rate-limit error. -/
theorem C1_sticky_selection :
    c1_selected = [some "B", some "B", some "B"] ∧
    c1_run3.2.1.active_accounts = [⟨"B", 3, 0⟩, ⟨"A", 0, 0⟩] := by
  exact ⟨by decide, by decide⟩

/-- C2 scenario: one account, default limit 100, broker always succeeds. -/
def c2_pool : Balancer := ⟨[⟨"A", 0, 0⟩], 100, false⟩

def c2_step (b : Balancer) : Balancer :=
  (execute_api_call ["A"] api_all_ok login_always 0 b).2.1

/-- State after 100 successful calls in one window. -/
def c2_after100 : Balancer := c2_step^[100] c2_pool

/-- The 101st call in the same window. -/
def c2_run101 : ExecResult × Balancer × ExecStats :=
  execute_api_call ["A"] api_all_ok login_always 0 c2_after100

set_option maxRecDepth 4000

/-- C2: `call_count` does exceed the limit.  After 100 successful calls the
account sits at `calls = 100`, yet the sticky `current_account` path selects
it again without any limit check, the 101st invocation succeeds, and the
counter reaches 101 > 100 within the same window. -/
theorem C2_counterexample :
    c2_after100.active_accounts = [⟨"A", 100, 0⟩] ∧
    c2_run101.1 = .success "A" 101 ∧
    c2_run101.2.1.active_accounts = [⟨"A", 101, 0⟩] ∧
    c2_pool.calls_per_minute = 100 := by
  exact ⟨by decide, by decide, by decide, by decide⟩

/-- C2 (amended): the guarantee the code does give is at selection time
only: an account freshly returned by `get_next_account` always has
`call_count` strictly below the limit.  The sticky `current_account` path
used by `execute_api_call` performs no limit check, so successful calls can
push the counter past the limit (see the counterexample). -/
theorem C2_selection_under_limit (b : Balancer) (now : Int) (a : Account) (b' : Balancer)
    (h : get_next_account b now = .ok (a, b')) : a.calls < b.calls_per_minute := by
  unfold get_next_account at h
  split at h
  · exact absurd h (by simp)
  · split at h
    · rename_i a' accs' hfind
      obtain ⟨-, hlt⟩ := find_under_limit_shape _ _ _ hfind
      rw [Except.ok.injEq, Prod.mk.injEq] at h
      obtain ⟨rfl, rfl⟩ := h
      exact hlt
    · exact absurd h (by simp)

/-- Witness for C2 (amended) at a concrete state. -/
theorem C2_selection_under_limit_witness :
    (⟨"A", 7, 0⟩ : Account).calls < (⟨[⟨"A", 7, 0⟩], 100, false⟩ : Balancer).calls_per_minute :=
  C2_selection_under_limit ⟨[⟨"A", 7, 0⟩], 100, false⟩ 0 ⟨"A", 7, 0⟩
    ⟨[⟨"A", 7, 0⟩], 100, true⟩ rfl

/-- C3 scenario: the broker fails with the `invalid_key` message and
re-login would succeed if it were ever attempted. -/
def c3_pool : Balancer := ⟨[⟨"A", 0, 0⟩], 100, false⟩

def c3_run : ExecResult × Balancer × ExecStats :=
  execute_api_call ["A"] (fun _ _ => .err "Invalid key") login_always 0 c3_pool

/-- C3: an `InvalidKey`-classified failure does NOT trigger a re-login.
Line 221 of the source consults only the `expired_token`, `invalid_token`
and `token_mismatch` table entries; `"Invalid key"` matches none of them,
so the error is raised immediately with zero login attempts. -/
theorem C3_counterexample :
    c3_run.1 = .apiError "A" "Invalid key" ∧ c3_run.2.2.logins = 0 := by
  exact ⟨by decide, by decide⟩

/-- C3 (amended): re-login is attempted exactly for failures matching the
`expired_token` / `invalid_token` / `token_mismatch` entries (when the
account's credential is present in the config); an `InvalidKey` failure
(`"s-5"` / `"Invalid key"`) matches no re-login entry and is raised
immediately as an API error for the account. -/
theorem C3_relogin_kinds (cfgIds : List String) (loginOk : Nat → String → Bool)
    (now : Int) (i : Nat) (b : Balancer) (cid : String) (e : String) (stats : ExecStats)
    (htok : token_error_match e = true) (hcfg : cfgIds.contains cid = true) :
    (iterStats (handle_error cfgIds loginOk now i b (some cid) e stats)).logins =
      stats.logins + 1 ∧
    token_error_match "Invalid key" = false ∧
    handle_error cfgIds loginOk now i b (some cid) "Invalid key" stats =
      .exit (.apiError cid "Invalid key") b stats := by
  have hmem : cid ∈ cfgIds := by simpa using hcfg
  refine ⟨?_, by decide, ?_⟩
  · unfold handle_error
    cases hl : loginOk i cid
    · cases hr : rate_error_match e
      · simp [htok, hcfg, hmem, hl, hr, iterStats]
      · simp [htok, hcfg, hmem, hl, hr, iterStats]
    · simp [htok, hcfg, hmem, hl, iterStats]
  · unfold handle_error
    rw [show token_error_match "Invalid key" = false from by decide]
    rw [show rate_error_match "Invalid key" = false from by decide]
    rfl

/-- Witness for C3 (amended) at a concrete handler state. -/
theorem C3_relogin_kinds_witness :
    (iterStats (handle_error ["A"] login_always 0 0 c3_pool (some "A")
        "Token is expired" ⟨1, 1, 0⟩)).logins = 0 + 1 ∧
    token_error_match "Invalid key" = false ∧
    handle_error ["A"] login_always 0 0 c3_pool (some "A") "Invalid key" ⟨1, 1, 0⟩ =
      .exit (.apiError "A" "Invalid key") c3_pool ⟨1, 1, 0⟩ :=
  C3_relogin_kinds ["A"] login_always 0 0 c3_pool "A" "Token is expired" ⟨1, 1, 0⟩
    (by decide) (by decide)

/-- C5: the failing input.  An account whose window started 86430 seconds
(24 h 30 s) ago is NOT reset: the code tests `(now - last_reset).seconds`,
the within-day remainder (here 30), not the total elapsed time, so
`get_next_account` leaves `call_count` at 7 and `window_start` untouched,
while an account 120 s old is reset as the spec demands. -/
theorem C5_window_reset_bug :
    td_seconds (86430 - 0) = 30 ∧
    reset_windows 86430 [⟨"A", 7, 0⟩] = [⟨"A", 7, 0⟩] ∧
    get_next_account ⟨[⟨"A", 7, 0⟩], 100, false⟩ 86430 =
      .ok (⟨"A", 7, 0⟩, ⟨[⟨"A", 7, 0⟩], 100, true⟩) ∧
    reset_windows 120 [⟨"A", 7, 0⟩] = [⟨"A", 0, 120⟩] := by
  exact ⟨by decide, by decide, rfl, by decide⟩

/-- C6 scenario: two fresh accounts; the first selection picks B (the deque
is rotated before the check); B fails with an auth error; every re-login
attempt fails; A would succeed if it were ever tried. -/
def c6_pool : Balancer := ⟨[⟨"A", 0, 0⟩, ⟨"B", 0, 0⟩], 100, false⟩

def c6_api : Nat → String → ApiOutcome :=
  fun _ c => if c == "B" then .err "Token is expired" else .ok

def c6_run : ExecResult × Balancer × ExecStats :=
  execute_api_call ["A", "B"] c6_api (fun _ _ => false) 0 c6_pool

/-- C6: when the re-login fails, `execute_api_call` does NOT move on to the
next rotation attempt and does not surface a `LoginFailed` wrapper.  The
login failure is only printed; the handler then falls through to the
rate-limit check, which the auth text does not match, and the ORIGINAL auth
error is raised as `API Error (B)` after a single iteration — account A is
never invoked even though it would have succeeded. -/
theorem C6_counterexample :
    c6_run.1 = .apiError "B" "Token is expired" ∧
    c6_run.2.2 = ⟨1, 1, 1⟩ := by
  exact ⟨by decide, by decide⟩

/-- C6 (amended): if a failure matches a re-login entry, the credential is
configured, the re-login attempt fails, and the error text does not also
match a rate-limit entry, then the handler aborts the whole call by raising
the original error wrapped as an API error for that account (the login
failure itself is only logged); it does not proceed to another account. -/
theorem C6_login_failure_aborts (cfgIds : List String) (loginOk : Nat → String → Bool)
    (now : Int) (i : Nat) (b : Balancer) (cid : String) (e : String) (stats : ExecStats)
    (htok : token_error_match e = true) (hcfg : cfgIds.contains cid = true)
    (hlog : loginOk i cid = false) (hrate : rate_error_match e = false) :
    handle_error cfgIds loginOk now i b (some cid) e stats =
      .exit (.apiError cid e) b { stats with logins := stats.logins + 1 } := by
  have hmem : cid ∈ cfgIds := by simpa using hcfg
  unfold handle_error
  simp [htok, hmem, hlog, hrate]

/-- Witness for C6 (amended) at a concrete handler state. -/
theorem C6_login_failure_aborts_witness :
    handle_error ["A", "B"] (fun _ _ => false) 0 0 c6_pool (some "B")
        "Token is expired" ⟨1, 1, 0⟩ =
      .exit (.apiError "B" "Token is expired") c6_pool
        { iterations := 1, invocations := 1, logins := 0 + 1 } :=
  C6_login_failure_aborts ["A", "B"] (fun _ _ => false) 0 0 c6_pool "B"
    "Token is expired" ⟨1, 1, 0⟩ (by decide) (by decide) rfl (by decide)

/-- C7 scenarios share this clock instant. -/
def c7_now : Int := 200000

/-- A well-formed record `age` seconds old. -/
def c7_good (cid : String) (age : Int) : SRecord := ⟨.num (c7_now - age), some "tok", some cid⟩

/-- A record whose `timestamp` field holds a JSON string. -/
def c7_badTs : SRecord := ⟨.str "oops", some "tok", some "A"⟩

/-- C7: a single bad record CAN prevent the remaining records from being
loaded.  A record whose `timestamp` is a string makes
`time.time() - session.get('timestamp', 0)` raise a `TypeError` outside the
per-record `try`, so the outer handler aborts the whole load: the 1-hour-old
valid record that follows it is not loaded. -/
theorem C7_counterexample :
    (load_sessions true [c7_badTs, c7_good "B" 3600] c7_now).loaded = [] ∧
    (load_sessions true [c7_badTs, c7_good "B" 3600] c7_now).aborted = true := by
  exact ⟨by decide, by decide⟩

/-- C7 (amended): a missing file yields zero sessions without raising; the
1-hour-old/25-hour-old store loads exactly the valid record; a fresh record
whose broker-model construction fails (missing token) with its account id
present is skipped individually; but a record with a non-numeric timestamp
aborts the load of all remaining records (prior loads are kept). -/
theorem C7_load_sessions :
    load_sessions false [c7_good "A" 3600] c7_now = ⟨[], 0, false, false⟩ ∧
    (load_sessions true [c7_good "A" 3600, c7_good "B" 90000] c7_now).loaded = ["A"] ∧
    (load_sessions true [c7_good "A" 3600, c7_good "B" 90000] c7_now).returned = true ∧
    (load_sessions true [⟨.num (c7_now - 60), none, some "A"⟩, c7_good "B" 3600] c7_now).loaded
      = ["B"] ∧
    (load_sessions true [c7_good "A" 3600, c7_badTs, c7_good "B" 3600] c7_now).loaded
      = ["A"] := by
  exact ⟨by decide, by decide, by decide, by decide, by decide⟩

/-- C8 scenario: one account, broker fails with an unclassifiable text. -/
def c8_pool : Balancer := ⟨[⟨"A", 0, 0⟩], 100, false⟩

def c8_run : ExecResult × Balancer × ExecStats :=
  execute_api_call ["A"] (fun _ _ => .err "unexpected broker outage") login_always 0 c8_pool

/-- C8: classification is case-insensitive substring matching against the
fixed table.  `"Token is expired"` matches the `expired_token` entry (the
spec's `AuthExpired`), `"Too many requests"` matches `too_many_requests`
(the spec's `TooManyRequests`), and `"unexpected broker outage"` matches no
table entry: `execute_api_call` raises it immediately wrapped with the
account's client id, with no re-login (`logins = 0`) and no rotation (one
iteration, sticky pointer left set). -/
theorem C8_classification :
    classify "Token is expired" = some .expired_token ∧
    classify "Too many requests" = some .too_many_requests ∧
    classify "unexpected broker outage" = none ∧
    c8_run.1 = .apiError "A" "unexpected broker outage" ∧
    c8_run.2.2 = ⟨1, 1, 0⟩ ∧
    c8_run.2.1.current_set = true := by
  exact ⟨by decide, by decide, by decide, by decide, by decide, by decide⟩

/-! ### Termination and iteration bound of the gateway loop (C4) -/

lemma handle_error_iterations (cfgIds : List String) (loginOk : Nat → String → Bool)
    (now : Int) (i : Nat) (b : Balancer) (accId : Option String) (e : String)
    (stats : ExecStats) :
    (iterStats (handle_error cfgIds loginOk now i b accId e stats)).iterations =
      stats.iterations := by
  unfold handle_error
  repeat' split
  all_goals rfl

lemma exec_iter_iterations (cfgIds : List String) (api : Nat → String → ApiOutcome)
    (loginOk : Nat → String → Bool) (now : Int) (i : Nat) (b : Balancer)
    (lastAcc : Option String) (stats : ExecStats) :
    (iterStats (exec_iter cfgIds api loginOk now i b lastAcc stats)).iterations =
      stats.iterations + 1 := by
  unfold exec_iter
  split
  · exact handle_error_iterations ..
  · split
    · rfl
    · exact handle_error_iterations ..

lemma exec_loop_iterations (cfgIds : List String) (api : Nat → String → ApiOutcome)
    (loginOk : Nat → String → Bool) (now : Int) :
    ∀ (fuel i : Nat) (b : Balancer) (lastAcc : Option String) (stats : ExecStats),
      (exec_loop cfgIds api loginOk now fuel i b lastAcc stats).2.2.iterations ≤
        stats.iterations + fuel := by
  intro fuel
  induction fuel with
  | zero => intro i b la stats; simp [exec_loop]
  | succ n ih =>
    intro i b la stats
    have hit := exec_iter_iterations cfgIds api loginOk now i b la stats
    unfold exec_loop
    cases h : exec_iter cfgIds api loginOk now i b la stats with
    | exit r b' stats' =>
      rw [h] at hit
      simp only [iterStats] at hit
      simp [hit]
    | next b' la' stats' =>
      rw [h] at hit
      simp only [iterStats] at hit
      have h2 := ih (i + 1) b' la' stats'
      simp only []
      omega

lemma handle_error_rate (cfgIds : List String) (loginOk : Nat → String → Bool)
    (now : Int) (i : Nat) (b : Balancer) (accId : Option String) (stats : ExecStats) :
    handle_error cfgIds loginOk now i b accId "Too many requests" stats =
      .next { b with current_set := false } accId stats := by
  unfold handle_error
  rw [show token_error_match "Too many requests" = false from by decide]
  rw [show rate_error_match "Too many requests" = true from by decide]
  rfl

lemma current_account_good {b : Balancer} {now : Int}
    (hne : b.active_accounts ≠ []) (hpos : 0 < b.calls_per_minute)
    (hall : ∀ a ∈ b.active_accounts, a.calls < b.calls_per_minute) :
    ∃ a b1, current_account b now = .ok (a, b1) ∧
      b1.active_accounts ≠ [] ∧ b1.calls_per_minute = b.calls_per_minute ∧
      (∀ x ∈ b1.active_accounts, x.calls < b1.calls_per_minute) := by
  unfold current_account
  split
  · rename_i a' tail hcur heq
    exact ⟨a', b, rfl, hne, rfl, hall⟩
  · have hall' : ∀ x ∈ reset_windows now b.active_accounts, x.calls < b.calls_per_minute :=
      reset_windows_calls_lt now hpos hall
    obtain ⟨a, rest, hrot, hgn⟩ := get_next_account_eq hne hall'
    refine ⟨a, _, hgn, by simp, rfl, ?_⟩
    intro x hx
    have : x ∈ reset_windows now b.active_accounts :=
      mem_rotate_left.mp (hrot ▸ hx)
    exact hall' x this

lemma exec_loop_all_rate (cfgIds : List String) (loginOk : Nat → String → Bool) (now : Int) :
    ∀ (fuel i : Nat) (b : Balancer) (lastAcc : Option String) (stats : ExecStats),
      b.active_accounts ≠ [] → 0 < b.calls_per_minute →
      (∀ a ∈ b.active_accounts, a.calls < b.calls_per_minute) →
      (exec_loop cfgIds (fun _ _ => .err "Too many requests") loginOk now
          fuel i b lastAcc stats).1 = .exhausted := by
  intro fuel
  induction fuel with
  | zero => intro i b la stats _ _ _; rfl
  | succ n ih =>
    intro i b la stats hne hpos hall
    obtain ⟨a, b1, hca, hne1, hcpm1, hall1⟩ := @current_account_good b now hne hpos hall
    unfold exec_loop exec_iter
    rw [hca]
    simp only []
    rw [handle_error_rate]
    simp only []
    exact ih (i + 1) _ _ _ (by simpa using hne1) (by simpa [hcpm1] using hpos)
      (by simpa [hcpm1] using hall1)

/-- C4: `execute_api_call` terminates, enters the retry loop at most
`len(pool)` times, and when every attempt fails recoverably (here: every
invocation reports a rate-limit error and no account is at its limit) it
falls off the loop and raises `All accounts failed or reached rate limits`
(the spec's `AllAccountsExhausted`) instead of looping indefinitely. -/
theorem C4_execute_bounded (cfgIds : List String) (api : Nat → String → ApiOutcome)
    (loginOk : Nat → String → Bool) (now : Int) (b : Balancer) :
    (execute_api_call cfgIds api loginOk now b).2.2.iterations ≤ b.active_accounts.length ∧
    (0 < b.calls_per_minute →
      (∀ a ∈ b.active_accounts, a.calls < b.calls_per_minute) →
      (execute_api_call cfgIds (fun _ _ => .err "Too many requests") loginOk now b).1 =
        .exhausted) := by
  constructor
  · have h := exec_loop_iterations cfgIds api loginOk now
      b.active_accounts.length 0 b none ⟨0, 0, 0⟩
    simpa [execute_api_call] using h
  · intro hpos hall
    cases hb : b.active_accounts with
    | nil => unfold execute_api_call; rw [hb]; rfl
    | cons c t =>
      exact exec_loop_all_rate cfgIds loginOk now b.active_accounts.length 0 b none
        ⟨0, 0, 0⟩ (by rw [hb]; simp) hpos hall

/-- Witness for C4 at a concrete two-account pool. -/
theorem C4_execute_bounded_witness :
    (execute_api_call ["A", "B"] api_all_ok login_always 0 c6_pool).2.2.iterations ≤
      c6_pool.active_accounts.length ∧
    (execute_api_call ["A", "B"] (fun _ _ => .err "Too many requests") login_always 0
        c6_pool).1 = .exhausted := by
  have h := C4_execute_bounded ["A", "B"] api_all_ok login_always 0 c6_pool
  exact ⟨h.1, h.2 (by decide) (by decide)⟩

/-! ### Round-robin fairness of `get_next_account` (C9) -/

/-- Runs `k` consecutive `get_next_account` selections, collecting the returned
accounts (stopping early if a selection raises). -/
def select_n (now : Int) : Nat → Balancer → List Account × Balancer
  | 0, b => ([], b)
  | k + 1, b =>
    match get_next_account b now with
    | .ok (a, b') =>
      let p := select_n now k b'
      (a :: p.1, p.2)
    | .error _ => ([], b)

lemma select_n_rotates (now : Int) :
    ∀ (k : Nat) (b : Balancer),
      (∀ a ∈ b.active_accounts, a.calls < b.calls_per_minute) →
      (∀ a ∈ b.active_accounts, td_seconds (now - a.last_reset) < 60) →
      k ≤ b.active_accounts.length → b.active_accounts ≠ [] →
      (select_n now k b).1 = (rotate_left b.active_accounts).take k := by
  intro k
  induction k with
  | zero => intro b _ _ _ _; simp [select_n]
  | succ n ih =>
    intro b hall hwin hk hne
    have hid : reset_windows now b.active_accounts = b.active_accounts :=
      reset_windows_id now _ hwin
    obtain ⟨a, rest, hrot, hgn⟩ := get_next_account_eq hne (by rw [hid]; exact hall)
    rw [hid] at hrot
    have hperm : (a :: rest).Perm b.active_accounts := hrot ▸ rotate_left_perm _
    have hlen : rest.length + 1 = b.active_accounts.length := by
      have h := hrot ▸ length_rotate_left b.active_accounts
      simpa using h
    unfold select_n
    rw [hgn]
    simp only []
    set b' : Balancer :=
      { b with active_accounts := a :: rest, current_set := true } with hb'
    have hrec := ih b' (fun x hx => hall x (hperm.mem_iff.mp hx))
      (fun x hx => hwin x (hperm.mem_iff.mp hx))
      (by simp [hb']; omega) (by simp [hb'])
    have hacc : b'.active_accounts = a :: rest := rfl
    rw [hacc] at hrec
    rw [hrec, hrot]
    have hn : n ≤ rest.length := by omega
    simp [rotate_left, List.take_succ_cons, List.take_append_of_le_length hn]

/-- C9: for a pool of `N` accounts, none rate-limited and none due a window
reset, `N` consecutive `get_next_account` selections return the rotation of
the pool — a permutation of the pool, hence (for distinct accounts) each
account exactly once before any repeat. -/
theorem C9_round_robin (b : Balancer) (now : Int)
    (hne : b.active_accounts ≠ [])
    (hall : ∀ a ∈ b.active_accounts, a.calls < b.calls_per_minute)
    (hwin : ∀ a ∈ b.active_accounts, td_seconds (now - a.last_reset) < 60) :
    (select_n now b.active_accounts.length b).1 = rotate_left b.active_accounts ∧
    ((select_n now b.active_accounts.length b).1).Perm b.active_accounts ∧
    (b.active_accounts.Nodup → ((select_n now b.active_accounts.length b).1).Nodup) := by
  have h := select_n_rotates now b.active_accounts.length b hall hwin le_rfl hne
  have htake : (rotate_left b.active_accounts).take b.active_accounts.length =
      rotate_left b.active_accounts :=
    List.take_of_length_le (by rw [length_rotate_left])
  rw [htake] at h
  refine ⟨h, h ▸ rotate_left_perm _, fun hnd => ?_⟩
  exact (h ▸ rotate_left_perm b.active_accounts).symm.nodup hnd

/-- C9 witness pool: three fresh distinct accounts. -/
def c9_pool : Balancer := ⟨[⟨"A", 0, 0⟩, ⟨"B", 0, 0⟩, ⟨"C", 0, 0⟩], 100, false⟩

/-- Witness for C9 at a concrete three-account pool. -/
theorem C9_round_robin_witness :
    (select_n 0 c9_pool.active_accounts.length c9_pool).1 =
      rotate_left c9_pool.active_accounts ∧
    ((select_n 0 c9_pool.active_accounts.length c9_pool).1).Perm c9_pool.active_accounts ∧
    (c9_pool.active_accounts.Nodup →
      ((select_n 0 c9_pool.active_accounts.length c9_pool).1).Nodup) :=
  C9_round_robin c9_pool 0 (by decide) (by decide) (by decide)

/-! ### Counter mutations of one gateway iteration (C10) -/

/-- C10: within one loop iteration of `execute_api_call`, the selected
account's counter is incremented exactly when the invocation succeeds.  On
success the account (the head of the deque) ends with `calls + 1`; on any
raised broker error the account is left untouched, except that a successful
re-login resets `calls` to 0 and `last_reset` to now — a failure never
increments the counter. -/
theorem C10_no_increment_on_failure (cfgIds : List String)
    (api : Nat → String → ApiOutcome) (loginOk : Nat → String → Bool) (now : Int)
    (i : Nat) (b : Balancer) (lastAcc : Option String) (stats : ExecStats)
    (a : Account) (b1 : Balancer)
    (hsel : current_account b now = .ok (a, b1)) :
    (api i a.client_id = .ok →
      (iterBal (exec_iter cfgIds api loginOk now i b lastAcc stats)).active_accounts.head? =
        some { a with calls := a.calls + 1 }) ∧
    (∀ m, api i a.client_id = .err m →
      (iterBal (exec_iter cfgIds api loginOk now i b lastAcc stats)).active_accounts.head? =
          some a ∨
      (iterBal (exec_iter cfgIds api loginOk now i b lastAcc stats)).active_accounts.head? =
          some { a with calls := 0, last_reset := now }) := by
  obtain ⟨⟨rest, hacc⟩, -⟩ := current_account_head hsel
  constructor
  · intro hok
    unfold exec_iter
    rw [hsel]
    simp only []
    rw [hok]
    simp [iterBal, update_head, hacc]
  · intro m hm
    unfold exec_iter
    rw [hsel]
    simp only []
    rw [hm]
    unfold handle_error
    cases ht : token_error_match m
    · cases hr : rate_error_match m
      · simp [ht, hr, iterBal, hacc]
      · simp [ht, hr, iterBal, hacc]
    · cases hc : cfgIds.contains a.client_id
      · have hcm : a.client_id ∉ cfgIds := by simpa using hc
        cases hr : rate_error_match m
        · simp [ht, hc, hcm, hr, iterBal, hacc]
        · simp [ht, hc, hcm, hr, iterBal, hacc]
      · have hcm : a.client_id ∈ cfgIds := by simpa using hc
        cases hl : loginOk i a.client_id
        · cases hr : rate_error_match m
          · simp [ht, hc, hcm, hl, hr, iterBal, hacc]
          · simp [ht, hc, hcm, hl, hr, iterBal, hacc]
        · simp [ht, hc, hcm, hl, iterBal, hacc, replace_first]

/-- Witness for C10 at a concrete state (one fresh account, successful
invocation). -/
theorem C10_no_increment_on_failure_witness :
    (api_all_ok 0 (⟨"A", 0, 0⟩ : Account).client_id = .ok →
      (iterBal (exec_iter ["A"] api_all_ok login_always 0 0 c8_pool none
          ⟨0, 0, 0⟩)).active_accounts.head? = some ⟨"A", 0 + 1, 0⟩) ∧
    (∀ m, api_all_ok 0 (⟨"A", 0, 0⟩ : Account).client_id = .err m →
      (iterBal (exec_iter ["A"] api_all_ok login_always 0 0 c8_pool none
          ⟨0, 0, 0⟩)).active_accounts.head? = some ⟨"A", 0, 0⟩ ∨
      (iterBal (exec_iter ["A"] api_all_ok login_always 0 0 c8_pool none
          ⟨0, 0, 0⟩)).active_accounts.head? = some ⟨"A", 0, 0⟩) :=
  C10_no_increment_on_failure ["A"] api_all_ok login_always 0 0 c8_pool none
    ⟨0, 0, 0⟩ ⟨"A", 0, 0⟩ ⟨[⟨"A", 0, 0⟩], 100, true⟩ rfl

end Hedge
